import Mathlib

/-!
Shallow embedding of `src/mintalyze/mintalyze.py` (the `Transaction` record
and the `AccountHistory` collection) together with proofs about the claims
of the specification.

Modelling conventions:
* Python `datetime.date` becomes the `Date` structure below; comparison of
  `datetime.date` values is chronological, which for valid dates coincides
  with lexicographic comparison of (year, month, day).
* Python `Decimal` values become `ℚ` (decimal values are exact rationals;
  every arithmetic the code performs on them is addition and negation).
* Python exceptions become `Except` / `Option` results; the distinct
  exception classes the code can raise are the constructors of `ParseError`
  and `LoadError`.
* The file system is abstracted: `from_csv` receives `Option` of the list
  of CSV rows (each row a list of field strings, as produced by
  `csv.reader`), `none` standing for a file that cannot be opened.
-/

namespace Mintalyze

/-- A calendar date, the embedding of Python `datetime.date`. -/
structure Date where
  year : Nat
  month : Nat
  day : Nat
deriving DecidableEq

/-- Chronological strict order on dates (Python `date.__lt__`), which is
lexicographic on (year, month, day). -/
def Date.lt (a b : Date) : Bool :=
  decide (a.year < b.year) ||
    (decide (a.year = b.year) &&
      (decide (a.month < b.month) ||
        (decide (a.month = b.month) && decide (a.day < b.day))))

/-- Chronological non-strict order on dates (Python `date.__le__`). -/
def Date.le (a b : Date) : Bool :=
  Date.lt a b || decide (a = b)

/-- The embedding of the `Transaction` namedtuple of `mintalyze.py`:
nine stored fields, in the order of the Python declaration. -/
structure Transaction where
  date : Date
  description : String
  original_description : String
  absolute_amount : ℚ
  type : String
  category : String
  account : String
  labels : String
  notes : String
deriving DecidableEq

/-- `Transaction.is_debit`: true iff the stored `type` field is the literal
string "debit". -/
def Transaction.is_debit (t : Transaction) : Bool :=
  decide (t.type = "debit")

/-- `Transaction.is_transfer`: true iff the stored `category` field is the
literal string "Transfer". -/
def Transaction.is_transfer (t : Transaction) : Bool :=
  decide (t.category = "Transfer")

/-- `Transaction.amount`: the signed amount, negated iff the transaction is
a debit. -/
def Transaction.amount (t : Transaction) : ℚ :=
  if t.is_debit then -t.absolute_amount else t.absolute_amount

/-- `Transaction.__add__(self, other)`: evaluates `self.amount + other.amount`.
It therefore requires `other` to expose an `amount` attribute: in the source
this only succeeds when `other` is itself a `Transaction`. -/
def Transaction.add (t u : Transaction) : ℚ :=
  t.amount + u.amount

/-- `Transaction.__radd__(self, other)`: evaluates `other + self.amount`,
for `other` an already-numeric value. -/
def Transaction.radd (t : Transaction) (other : ℚ) : ℚ :=
  other + t.amount

/-- `Transaction.__lt__`: compares by signed amount only. -/
def Transaction.lt (t u : Transaction) : Bool :=
  decide (t.amount < u.amount)

/-- `Transaction.__gt__`: compares by signed amount only. -/
def Transaction.gt (t u : Transaction) : Bool :=
  decide (t.amount > u.amount)

/-- A Python value that can appear as an operand of `+` in the claims:
either a plain number or a `Transaction`. -/
inductive PyVal where
  | num (a : ℚ)
  | tx (t : Transaction)

/-- Python's binary `+` dispatch restricted to `PyVal` operands, following
the language rules the source relies on:
* number + number adds directly;
* number + transaction: the number type returns `NotImplemented`, and
  Python falls back to `Transaction.__radd__`;
* transaction + number: `Transaction.__add__` runs and evaluates
  `other.amount` on a plain number, which raises `AttributeError` —
  exceptions inside `__add__` propagate, there is no fallback — so the
  result is `none`;
* transaction + transaction uses `Transaction.__add__`. -/
def pyAdd : PyVal → PyVal → Option ℚ
  | PyVal.num a, PyVal.num b => some (a + b)
  | PyVal.num a, PyVal.tx t => some (Transaction.radd t a)
  | PyVal.tx _, PyVal.num _ => none
  | PyVal.tx t, PyVal.tx u => some (Transaction.add t u)

/-- Python's `sum` over a list of transactions: a left fold started from the
numeric value `0`. At every step the accumulator is a plain number, so the
number type's `__add__` returns `NotImplemented` and `Transaction.__radd__`
performs the addition. -/
def pySum (ts : List Transaction) : ℚ :=
  ts.foldl (fun acc t => Transaction.radd t acc) 0

/-- The embedding of `AccountHistory`: its one attribute, the list of
contained transactions (`self.transactions`). -/
structure AccountHistory where
  transactions : List Transaction
deriving DecidableEq

/-- `AccountHistory.__init__(transactions, include_transfers=False)`:
stores the given transactions, filtering out transfers unless
`include_transfers` is true. -/
def AccountHistory.init (ts : List Transaction) (include_transfers : Bool) :
    AccountHistory :=
  if include_transfers then ⟨ts⟩
  else ⟨ts.filter (fun t => !t.is_transfer)⟩

/-- `AccountHistory.after(date)` (date already parsed): keeps transactions
with `t.date > date`, rebuilt through the constructor with
`include_transfers` left at its default `False`. -/
def AccountHistory.after (h : AccountHistory) (d : Date) : AccountHistory :=
  AccountHistory.init (h.transactions.filter (fun t => Date.lt d t.date)) false

/-- `AccountHistory.on_or_after(date)`: keeps transactions with
`t.date >= date`, rebuilt through the constructor with the default
`include_transfers=False`. -/
def AccountHistory.on_or_after (h : AccountHistory) (d : Date) : AccountHistory :=
  AccountHistory.init (h.transactions.filter (fun t => Date.le d t.date)) false

/-- `AccountHistory.before(date)`: keeps transactions with `t.date < date`,
rebuilt through the constructor with the default `include_transfers=False`. -/
def AccountHistory.before (h : AccountHistory) (d : Date) : AccountHistory :=
  AccountHistory.init (h.transactions.filter (fun t => Date.lt t.date d)) false

/-- `AccountHistory.on_or_before(date)`: keeps transactions with
`t.date <= date`, rebuilt through the constructor with the default
`include_transfers=False`. -/
def AccountHistory.on_or_before (h : AccountHistory) (d : Date) : AccountHistory :=
  AccountHistory.init (h.transactions.filter (fun t => Date.le t.date d)) false

/-- `AccountHistory.debits`: keeps transactions with `t.is_debit`, rebuilt
through the constructor with the default `include_transfers=False`. -/
def AccountHistory.debits (h : AccountHistory) : AccountHistory :=
  AccountHistory.init (h.transactions.filter (fun t => t.is_debit)) false

/-- `AccountHistory.deposits`: keeps transactions with `not t.is_debit`,
rebuilt through the constructor with the default `include_transfers=False`. -/
def AccountHistory.deposits (h : AccountHistory) : AccountHistory :=
  AccountHistory.init (h.transactions.filter (fun t => !t.is_debit)) false

/-- `AccountHistory.__len__`: the number of stored transactions. -/
def AccountHistory.len (h : AccountHistory) : Nat :=
  h.transactions.length

/-- `total` over a collection: Python `sum(history)`, which iterates the
stored transactions and folds them from numeric `0`. -/
def AccountHistory.total (h : AccountHistory) : ℚ :=
  pySum h.transactions

/-- The distinct parse-failure exceptions `_parse_row` can raise:
* `badDate s` — `datetime.strptime` raised `ValueError`; the exception
  carries the offending string (not the row position);
* `badAmount s` — `Decimal(row[3])` raised `InvalidOperation`; the
  exception carries the offending string (not the row position);
* `missingColumn` — an index `row[i]` was out of range (`IndexError`). -/
inductive ParseError where
  | badDate (s : String)
  | badAmount (s : String)
  | missingColumn
deriving DecidableEq

/-- Split a character list at every occurrence of the slash character. -/
def splitSlash : List Char → List (List Char)
  | [] => [[]]
  | c :: cs =>
    if c = '/' then [] :: splitSlash cs
    else
      match splitSlash cs with
      | g :: gs => (c :: g) :: gs
      | [] => [[c]]

/-- Numeric value of a list of decimal digit characters (most significant
first); the empty list yields 0. -/
def digitsVal (cs : List Char) : Nat :=
  cs.foldl (fun n c => 10 * n + (c.toNat - 48)) 0

/-- Whether a year is a leap year (the Gregorian rule used by
`datetime.date`). -/
def isLeap (y : Nat) : Bool :=
  decide (y % 4 = 0) && (!decide (y % 100 = 0) || decide (y % 400 = 0))

/-- Number of days in a given month of a given year, as validated by the
`datetime.date` constructor. -/
def daysInMonth (y m : Nat) : Nat :=
  if m = 2 then (if isLeap y then 29 else 28)
  else if m = 4 || m = 6 || m = 9 || m = 11 then 30
  else 31

/-- `Transaction.parse_date(string)`, i.e.
`datetime.strptime(string, '%m/%d/%Y').date()`:
* the string must consist of exactly three slash-separated digit groups
  (`strptime` anchors the pattern at both ends and matches only digits in
  each field);
* the month and day groups are one or two digits (the `%m` / `%d`
  patterns), with month value 1–12 and day value 1–31;
* the year group is exactly four digits (the `%Y` pattern);
* `datetime.date` then validates the calendar: year at least 1 and day at
  most `daysInMonth`.
Any violation raises `ValueError`, surfaced here as `badDate`.
`dateGuard` is the conjunction of those field checks, `parse_date` the
split-and-validate driver. -/
def dateGuard (ms ds ys : List Char) : Bool :=
  ms.all Char.isDigit && ds.all Char.isDigit && ys.all Char.isDigit
    && decide (1 ≤ ms.length) && decide (ms.length ≤ 2)
    && decide (1 ≤ digitsVal ms) && decide (digitsVal ms ≤ 12)
    && decide (1 ≤ ds.length) && decide (ds.length ≤ 2)
    && decide (1 ≤ digitsVal ds) && decide (digitsVal ds ≤ 31)
    && decide (ys.length = 4)
    && decide (1 ≤ digitsVal ys)
    && decide (digitsVal ds ≤ daysInMonth (digitsVal ys) (digitsVal ms))

/-- See `dateGuard`: the embedding of
`datetime.strptime(string, '%m/%d/%Y').date()`. -/
def Transaction.parse_date (s : String) : Except ParseError Date :=
  match splitSlash s.data with
  | [ms, ds, ys] =>
    if dateGuard ms ds ys
    then Except.ok ⟨digitsVal ys, digitsVal ms, digitsVal ds⟩
    else Except.error (ParseError.badDate s)
  | _ => Except.error (ParseError.badDate s)

/-- `Decimal(string)` on the plain fixed-point numeric strings the Mint
export format uses: an optional sign followed by digits with at most one
decimal point and at least one digit (`Decimal` also accepts exponent and
special forms such as `1E2` or `NaN`, which no claim and no Mint export
exercises; those are out of the model). `none` stands for the
`InvalidOperation` exception. -/
def parseDecimal (s : String) : Option ℚ :=
  let core : List Char → Option ℚ := fun cs =>
    match cs.splitOn '.' with
    | [ip] =>
      if decide (ip ≠ []) && ip.all Char.isDigit
      then some ((digitsVal ip : ℚ)) else none
    | [ip, fp] =>
      if decide (ip ≠ [] ∨ fp ≠ []) && ip.all Char.isDigit && fp.all Char.isDigit
      then some ((digitsVal ip : ℚ) + (digitsVal fp : ℚ) / ((10 : ℚ) ^ fp.length))
      else none
    | _ => none
  match s.data with
  | '-' :: rest => (core rest).map (fun q => -q)
  | '+' :: rest => core rest
  | cs => core cs

/-- Look up column `i` of a row; `IndexError` becomes `missingColumn`. -/
def getCol (row : List String) (i : Nat) : Except ParseError String :=
  match row.get? i with
  | some v => Except.ok v
  | none => Except.error ParseError.missingColumn

/-- `Decimal(row[3])` as an `Except`, keeping the offending string. -/
def parseAmount (s : String) : Except ParseError ℚ :=
  match parseDecimal s with
  | some q => Except.ok q
  | none => Except.error (ParseError.badAmount s)

/-- `AccountHistory._parse_row(row)`: reads the nine columns in the order
of the source (date first, then the text columns, the amount, and the
remaining text columns); the first failing access or conversion raises.
Columns beyond the ninth are never accessed. -/
def AccountHistory.parse_row (row : List String) : Except ParseError Transaction := do
  let c0 ← getCol row 0
  let date ← Transaction.parse_date c0
  let description ← getCol row 1
  let original_description ← getCol row 2
  let c3 ← getCol row 3
  let amount ← parseAmount c3
  let type ← getCol row 4
  let category ← getCol row 5
  let account ← getCol row 6
  let labels ← getCol row 7
  let notes ← getCol row 8
  Except.ok ⟨date, description, original_description, amount, type,
    category, account, labels, notes⟩

/-- The exceptions `from_csv` can raise: the file cannot be opened
(`OSError`, the specification's FileError), or a row fails to parse. -/
inductive LoadError where
  | fileError
  | parseError (e : ParseError)
deriving DecidableEq

deriving instance DecidableEq for Except

/-- Parse every data row, left to right; the first failure aborts the whole
load (in the source the generator is consumed inside
`AccountHistory.__init__`, so the exception escapes `from_csv` before any
collection is produced). -/
def parseRows : List (List String) → Except ParseError (List Transaction)
  | [] => Except.ok []
  | row :: rest => do
    let t ← AccountHistory.parse_row row
    let ts ← parseRows rest
    Except.ok (t :: ts)

/-- `AccountHistory.from_csv(filename, include_transfers=False)`: the file
is abstracted to `Option` of the list of rows `csv.reader` would produce,
`none` when the file cannot be opened. The first row (the header) is
discarded, each remaining row is parsed with `_parse_row`, and the
resulting transactions are handed to `AccountHistory.__init__` with the
given `include_transfers`. -/
def AccountHistory.from_csv (file : Option (List (List String)))
    (include_transfers : Bool) : Except LoadError AccountHistory :=
  match file with
  | none => Except.error LoadError.fileError
  | some rows =>
    match parseRows (rows.drop 1) with
    | Except.ok ts => Except.ok (AccountHistory.init ts include_transfers)
    | Except.error e => Except.error (LoadError.parseError e)

/-! ### Sample data

Concrete transactions used by the closed witness and counterexample
theorems; the values mirror the worked example of the specification. -/

/-- A debit transaction: coffee, 4, on 2023-01-01. -/
def coffee : Transaction :=
  ⟨⟨2023, 1, 1⟩, "Coffee", "", 4, "debit", "Food", "Checking", "", ""⟩

/-- A second debit with the same amount as `coffee` but every other field
different. -/
def tea : Transaction :=
  ⟨⟨2024, 2, 2⟩, "Tea", "", 4, "debit", "Drink", "Savings", "", ""⟩

/-- A deposit transaction: paycheck, 1000.00, on 2023-01-02. -/
def paycheck : Transaction :=
  ⟨⟨2023, 1, 2⟩, "Paycheck", "", 1000, "credit", "Income", "Checking", "", ""⟩

/-- A transfer transaction dated 2023-05-01. -/
def movedMoney : Transaction :=
  ⟨⟨2023, 5, 1⟩, "Move", "", 100, "debit", "Transfer", "Savings", "", ""⟩

/-! ### Helper lemmas -/

/-- Folding `Transaction.__radd__` from any numeric start adds the signed
amounts. -/
lemma foldl_radd (ts : List Transaction) (a : ℚ) :
    ts.foldl (fun acc t => Transaction.radd t acc) a
      = a + (ts.map Transaction.amount).sum := by
  induction ts generalizing a with
  | nil => simp
  | cons t ts ih =>
    rw [List.foldl_cons, ih]
    simp [Transaction.radd, add_assoc]

/-- `pySum` computes the sum of the signed amounts. -/
lemma pySum_eq_sum_map (ts : List Transaction) :
    pySum ts = (ts.map Transaction.amount).sum := by
  simpa [pySum] using foldl_radd ts 0

/-- Filtering by a weaker predicate first does not change a filter. -/
lemma filter_of_filter_weaker (p q : α → Bool) (l : List α)
    (himp : ∀ a, p a = true → q a = true) :
    (l.filter q).filter p = l.filter p := by
  induction l with
  | nil => rfl
  | cons a l ih =>
    by_cases hp : p a = true
    · have hq := himp a hp
      simp [List.filter_cons, hp, hq, ih]
    · have hp' : p a = false := by revert hp; cases p a <;> simp
      cases hq : q a <;> simp [List.filter_cons, hp', hq, ih]

/-- The two halves of a boolean partition count up to the length. -/
lemma countP_not_add_countP (p : α → Bool) (l : List α) :
    l.countP (fun a => !p a) + l.countP p = l.length := by
  induction l with
  | nil => rfl
  | cons a l ih => cases ha : p a <;> simp [List.countP_cons, ha] <;> omega

/-- Summing a mapped value over the two halves of a boolean partition gives
the sum over the whole list. -/
lemma sum_map_filter_not_add (f : α → ℚ) (p : α → Bool) (l : List α) :
    ((l.filter p).map f).sum + ((l.filter (fun a => !p a)).map f).sum
      = (l.map f).sum := by
  induction l with
  | nil => simp
  | cons a l ih =>
    cases ha : p a <;>
      simp [List.filter_cons, ha, ← ih, add_assoc, add_left_comm]

/-- Strict date comparison is transitive (lexicographic order). -/
lemma Date.lt_trans {a b c : Date} (hab : Date.lt a b = true)
    (hbc : Date.lt b c = true) : Date.lt a c = true := by
  simp only [Date.lt, Bool.or_eq_true, Bool.and_eq_true,
    decide_eq_true_eq] at hab hbc ⊢
  omega

/-- Unfolding a successful `Except` bind. -/
lemma bind_ok {α β : Type} {x : Except ParseError α}
    {f : α → Except ParseError β} {b : β} (h : (x >>= f) = Except.ok b) :
    ∃ a, x = Except.ok a ∧ f a = Except.ok b := by
  cases x with
  | ok a => exact ⟨a, rfl, h⟩
  | error e => simp [Bind.bind, Except.bind] at h

/-- A successful column access means the row is long enough and returns the
stored field. -/
lemma getCol_ok {row : List String} {i : Nat} {v : String}
    (h : getCol row i = Except.ok v) : row.get? i = some v := by
  revert h
  unfold getCol
  cases row.get? i <;> simp

/-- Shape of a successfully parsed row: at least nine columns, a parseable
date in column 0, a numeric amount in column 3, and the stored fields taken
from their columns. -/
lemma parse_row_ok_shape {row : List String} {t : Transaction}
    (h : AccountHistory.parse_row row = Except.ok t) :
    9 ≤ row.length
    ∧ (∃ s, row.get? 0 = some s ∧ Transaction.parse_date s = Except.ok t.date)
    ∧ (∃ s, row.get? 3 = some s ∧ parseDecimal s = some t.absolute_amount)
    ∧ row.get? 5 = some t.category := by
  unfold AccountHistory.parse_row at h
  obtain ⟨c0, h0, h⟩ := bind_ok h
  obtain ⟨dt, hdt, h⟩ := bind_ok h
  obtain ⟨c1, h1, h⟩ := bind_ok h
  obtain ⟨c2, h2, h⟩ := bind_ok h
  obtain ⟨c3, h3, h⟩ := bind_ok h
  obtain ⟨am, ham, h⟩ := bind_ok h
  obtain ⟨c4, h4, h⟩ := bind_ok h
  obtain ⟨c5, h5, h⟩ := bind_ok h
  obtain ⟨c6, h6, h⟩ := bind_ok h
  obtain ⟨c7, h7, h⟩ := bind_ok h
  obtain ⟨c8, h8, h⟩ := bind_ok h
  have ht : t = ⟨dt, c1, c2, am, c4, c5, c6, c7, c8⟩ := by
    cases h; rfl
  have hlen : 9 ≤ row.length := by
    have h8' := getCol_ok h8
    have : ¬ row.length ≤ 8 := by
      intro hle
      rw [List.get?_eq_none.mpr hle] at h8'
      cases h8'
    omega
  have ham' : parseAmount c3 = Except.ok am := ham
  have hamv : parseDecimal c3 = some am := by
    revert ham'
    unfold parseAmount
    cases parseDecimal c3 <;> simp
  subst ht
  exact ⟨hlen, ⟨c0, getCol_ok h0, hdt⟩, ⟨c3, getCol_ok h3, hamv⟩,
    getCol_ok h5⟩

/-- Column accesses below index nine ignore any later columns. -/
lemma getCol_take {row : List String} {i : Nat} (h : i < 9) :
    getCol (row.take 9) i = getCol row i := by
  unfold getCol
  rw [List.get?_take h]

/-- If some row of the list fails to parse, parsing the whole list fails. -/
lemma parseRows_error {rs : List (List String)}
    (h : ∃ row ∈ rs, (AccountHistory.parse_row row).isOk = false) :
    ∃ e, parseRows rs = Except.error e := by
  induction rs with
  | nil => simp at h
  | cons row rs ih =>
    obtain ⟨r, hr, hfail⟩ := h
    cases hcur : AccountHistory.parse_row row with
    | error e => exact ⟨e, by simp [parseRows, hcur, Bind.bind, Except.bind]⟩
    | ok t =>
      rcases List.mem_cons.mp hr with hr | hr
      · subst hr; rw [hcur] at hfail; cases hfail
      · obtain ⟨e, he⟩ := ih ⟨r, hr, hfail⟩
        exact ⟨e, by simp [parseRows, hcur, he, Bind.bind, Except.bind]⟩

/-- If every row parses, the whole list parses, with one transaction per
row, each transaction a transfer exactly when its row's column 5 is the
literal string "Transfer". -/
lemma parseRows_ok_shape {rs : List (List String)}
    (h : ∀ row ∈ rs, (AccountHistory.parse_row row).isOk = true) :
    ∃ ts, parseRows rs = Except.ok ts
      ∧ ts.length = rs.length
      ∧ ts.countP (fun t => t.is_transfer)
          = rs.countP (fun row => decide (row.getD 5 "" = "Transfer")) := by
  induction rs with
  | nil => exact ⟨[], rfl, rfl, rfl⟩
  | cons row rs ih =>
    have hhead := h row (by simp)
    obtain ⟨t, ht⟩ : ∃ t, AccountHistory.parse_row row = Except.ok t := by
      revert hhead
      cases AccountHistory.parse_row row <;> simp [Except.isOk, Except.toBool]
    obtain ⟨ts, hts, hlen, hcount⟩ := ih (fun r hr => h r (by simp [hr]))
    refine ⟨t :: ts, ?_, by simp [hlen], ?_⟩
    · simp [parseRows, ht, hts, Bind.bind, Except.bind]
    · have hcat : row.get? 5 = some t.category := (parse_row_ok_shape ht).2.2.2
      have hcat5 : row[5]? = some t.category := by
        rw [← List.get?_eq_getElem?]
        exact hcat
      have hcount2 := hcount
      simp only [List.getD, List.get?_eq_getElem?, Transaction.is_transfer]
        at hcount2
      simp [List.countP_cons, Transaction.is_transfer, List.getD, hcat5,
        hcount2]

/-- The constructor with the default `include_transfers=False` keeps
exactly the non-transfers. -/
lemma init_false_transactions (ts : List Transaction) :
    (AccountHistory.init ts false).transactions
      = ts.filter (fun t => !t.is_transfer) := rfl

/-- The constructor with `include_transfers=True` keeps everything. -/
lemma init_true_transactions (ts : List Transaction) :
    (AccountHistory.init ts true).transactions = ts := rfl

/-- The list `after` produces: the date test conjoined with the transfer
re-filter the constructor applies. -/
lemma after_transactions (h : AccountHistory) (d : Date) :
    (h.after d).transactions
      = h.transactions.filter (fun t => !t.is_transfer && Date.lt d t.date) := by
  simp [AccountHistory.after, init_false_transactions, List.filter_filter]

/-- The list `on_or_after` produces. -/
lemma on_or_after_transactions (h : AccountHistory) (d : Date) :
    (h.on_or_after d).transactions
      = h.transactions.filter (fun t => !t.is_transfer && Date.le d t.date) := by
  simp [AccountHistory.on_or_after, init_false_transactions, List.filter_filter]

/-- The list `before` produces. -/
lemma before_transactions (h : AccountHistory) (d : Date) :
    (h.before d).transactions
      = h.transactions.filter (fun t => !t.is_transfer && Date.lt t.date d) := by
  simp [AccountHistory.before, init_false_transactions, List.filter_filter]

/-- The list `on_or_before` produces. -/
lemma on_or_before_transactions (h : AccountHistory) (d : Date) :
    (h.on_or_before d).transactions
      = h.transactions.filter (fun t => !t.is_transfer && Date.le t.date d) := by
  simp [AccountHistory.on_or_before, init_false_transactions, List.filter_filter]

/-- The list `debits` produces. -/
lemma debits_transactions (h : AccountHistory) :
    h.debits.transactions
      = h.transactions.filter (fun t => !t.is_transfer && t.is_debit) := by
  simp [AccountHistory.debits, init_false_transactions, List.filter_filter]

/-- The list `deposits` produces. -/
lemma deposits_transactions (h : AccountHistory) :
    h.deposits.transactions
      = h.transactions.filter (fun t => !t.is_transfer && !t.is_debit) := by
  simp [AccountHistory.deposits, init_false_transactions, List.filter_filter]

/-- Members of a transfer-re-filtered list are not transfers. -/
lemma is_transfer_false_of_mem_filter (p : Transaction → Bool)
    (l : List Transaction) (t : Transaction)
    (ht : t ∈ l.filter (fun u => !u.is_transfer && p u)) :
    t.is_transfer = false := by
  have hb := (List.mem_filter.mp ht).2
  simp only [Bool.and_eq_true] at hb
  simpa using hb.1

/-- Splitting a slash-free list yields the single whole group. -/
lemma splitSlash_no_slash (xs : List Char) (h : '/' ∉ xs) :
    splitSlash xs = [xs] := by
  induction xs with
  | nil => rfl
  | cons c cs ih =>
    have hc : ¬ c = '/' := fun hc => h (by simp [hc])
    have hcs : '/' ∉ cs := fun hm => h (by simp [hm])
    simp [splitSlash, hc, ih hcs]

/-- Splitting at an explicit slash after a slash-free prefix peels off the
prefix as the first group. -/
lemma splitSlash_append (xs ys : List Char) (h : '/' ∉ xs) :
    splitSlash (xs ++ '/' :: ys) = xs :: splitSlash ys := by
  induction xs with
  | nil => simp [splitSlash]
  | cons c cs ih =>
    have hc : ¬ c = '/' := fun hc => h (by simp [hc])
    have hcs : '/' ∉ cs := fun hm => h (by simp [hm])
    rw [List.cons_append]
    simp [splitSlash, hc, ih hcs]

/-- A slash is not a digit, so digit groups are slash-free. -/
lemma no_slash_of_digits {cs : List Char} (h : cs.all Char.isDigit = true) :
    '/' ∉ cs := by
  intro hm
  have hd := List.all_eq_true.mp h _ hm
  exact absurd hd (by decide)

/-- A successfully parsed date string splits into exactly three groups. -/
lemma parse_date_ok_split {s : String} {d : Date}
    (hok : Transaction.parse_date s = Except.ok d) :
    ∃ a b c, splitSlash s.data = [a, b, c] := by
  unfold Transaction.parse_date at hok
  cases hsp : splitSlash s.data with
  | nil => rw [hsp] at hok; simp at hok
  | cons a tl1 =>
    cases tl1 with
    | nil => rw [hsp] at hok; simp at hok
    | cons b tl2 =>
      cases tl2 with
      | nil => rw [hsp] at hok; simp at hok
      | cons c tl3 =>
        cases tl3 with
        | nil => exact ⟨a, b, c, rfl⟩
        | cons e4 tl4 => rw [hsp] at hok; simp at hok

/-- A successfully parsed date string passes the field checks. -/
lemma parse_date_ok_guard {s : String} {a b c : List Char} {d : Date}
    (hsp : splitSlash s.data = [a, b, c])
    (hok : Transaction.parse_date s = Except.ok d) :
    dateGuard a b c = true := by
  unfold Transaction.parse_date at hok
  rw [hsp] at hok
  have hok2 : (if dateGuard a b c
      then Except.ok (⟨digitsVal c, digitsVal a, digitsVal b⟩ : Date)
      else Except.error (ParseError.badDate s)) = Except.ok d := hok
  cases hg : dateGuard a b c with
  | true => rfl
  | false => rw [hg] at hok2; simp at hok2

/-- Modelled from the specification's words "month/day/year numeric
format": the string consists of exactly three slash-separated nonempty
groups of digits. Used as the spec-side format predicate that
`Transaction.parse_date` is compared against. -/
def matchesMDY (s : String) : Bool :=
  match splitSlash s.data with
  | [ms, ds, ys] =>
    decide (ms ≠ []) && decide (ds ≠ []) && decide (ys ≠ [])
      && ms.all Char.isDigit && ds.all Char.isDigit && ys.all Char.isDigit
  | _ => false

/-! ### Sample CSV rows -/

/-- The header row of a Mint export; its content is discarded. -/
def headerRow : List String :=
  ["Date", "Description", "Original Description", "Amount",
   "Transaction Type", "Category", "Account Name", "Labels", "Notes"]

/-- A valid data row carrying a tenth, extra column. -/
def rowTen : List String :=
  ["01/01/2023", "Coffee", "", "4", "debit", "Food", "Checking", "", "",
   "EXTRA"]

/-- A data row whose date is in ISO format rather than month/day/year. -/
def rowBadDate : List String :=
  ["2023-01-01", "X", "", "1", "debit", "Food", "Checking", "", ""]

/-- A valid deposit data row. -/
def rowGood : List String :=
  ["01/02/2023", "Pay", "", "1000", "credit", "Income", "Checking", "", ""]

/-- The transaction `rowGood` parses to. -/
def rowGoodTx : Transaction :=
  ⟨⟨2023, 1, 2⟩, "Pay", "", 1000, "credit", "Income", "Checking", "", ""⟩

/-- A valid data row whose category is "Transfer". -/
def rowTransfer : List String :=
  ["01/03/2023", "Move", "", "100", "debit", "Transfer", "Savings", "", ""]

/-! ### Claims -/

/-- Claim C1: summing any list of transactions the way Python's `sum` does
— a fold started from the numeric value 0, every step going through
`Transaction.__radd__` — yields the total of the signed amounts, where the
signed amount is `-absolute_amount` for a debit and `absolute_amount`
otherwise; the total of an empty collection is numeric zero. -/
theorem sum_yields_total_signed_amount (ts : List Transaction) (b : Bool) :
    pySum ts
      = (ts.map (fun t =>
          if t.is_debit then -t.absolute_amount else t.absolute_amount)).sum
    ∧ pySum [] = 0
    ∧ (AccountHistory.init [] b).total = 0 := by
  refine ⟨?_, rfl, ?_⟩
  · simpa [Transaction.amount] using pySum_eq_sum_map ts
  · cases b <;> rfl

/-- Claim C5 (counterexample): evaluating `transaction + number` — here the
sample transaction plus the number 0 — does not produce a numeric sum:
`Transaction.__add__` evaluates `other.amount` on a plain number, which
raises `AttributeError`. -/
theorem pyAdd_tx_num_cex :
    pyAdd (PyVal.tx coffee) (PyVal.num 0) = none := rfl

/-- Claim C5 (amended): `number + transaction` and
`transaction + transaction` yield the sum of the signed amount(s) and the
number, commutatively; `transaction + number`, with the transaction on the
left, raises instead of producing a value. -/
theorem pyAdd_semantics (t u : Transaction) (a : ℚ) :
    pyAdd (PyVal.num a) (PyVal.tx t) = some (a + t.amount)
    ∧ pyAdd (PyVal.tx t) (PyVal.tx u) = some (t.amount + u.amount)
    ∧ t.amount + u.amount = u.amount + t.amount
    ∧ a + t.amount = t.amount + a
    ∧ pyAdd (PyVal.tx t) (PyVal.num a) = none := by
  refine ⟨rfl, rfl, add_comm _ _, add_comm _ _, rfl⟩

/-- Claim C10: `t1 < t2` holds iff `t1`'s signed amount is strictly below
`t2`'s, `t1 > t2` holds iff it is strictly above, and when the signed
amounts are equal neither holds — the stored fields other than the ones
determining `amount` play no part. -/
theorem compare_by_amount (t u : Transaction) :
    (Transaction.lt t u = true ↔ t.amount < u.amount)
    ∧ (Transaction.gt t u = true ↔ u.amount < t.amount)
    ∧ (t.amount = u.amount →
        Transaction.lt t u = false ∧ Transaction.gt t u = false) := by
  refine ⟨by simp [Transaction.lt], by simp [Transaction.gt], ?_⟩
  intro h
  simp [Transaction.lt, Transaction.gt, h]

/-- Claim C10 (witness): `coffee` and `tea` have equal signed amounts but
differ in every other field, and neither compares less nor greater. -/
theorem compare_by_amount_witness :
    Transaction.amount coffee = Transaction.amount tea
    ∧ Transaction.lt coffee tea = false
    ∧ Transaction.gt coffee tea = false :=
  ⟨by decide, (compare_by_amount coffee tea).2.2 (by decide)⟩

/-- Claim C4: all six filtering operations rebuild their result through the
constructor with `include_transfers` at its default `False`, so no result
ever contains a transfer — even when the receiver does — and `debits` /
`deposits` in fact filter by the stated predicate conjoined with
not-a-transfer. -/
theorem filters_strip_transfers (h : AccountHistory) (d : Date) :
    (∀ t ∈ (h.after d).transactions, t.is_transfer = false)
    ∧ (∀ t ∈ (h.on_or_after d).transactions, t.is_transfer = false)
    ∧ (∀ t ∈ (h.before d).transactions, t.is_transfer = false)
    ∧ (∀ t ∈ (h.on_or_before d).transactions, t.is_transfer = false)
    ∧ (∀ t ∈ h.debits.transactions, t.is_transfer = false)
    ∧ (∀ t ∈ h.deposits.transactions, t.is_transfer = false)
    ∧ h.debits.transactions
        = h.transactions.filter (fun t => !t.is_transfer && t.is_debit)
    ∧ h.deposits.transactions
        = h.transactions.filter (fun t => !t.is_transfer && !t.is_debit) := by
  refine ⟨?_, ?_, ?_, ?_, ?_, ?_, debits_transactions h, deposits_transactions h⟩
  · intro t ht
    rw [after_transactions] at ht
    exact is_transfer_false_of_mem_filter _ _ t ht
  · intro t ht
    rw [on_or_after_transactions] at ht
    exact is_transfer_false_of_mem_filter _ _ t ht
  · intro t ht
    rw [before_transactions] at ht
    exact is_transfer_false_of_mem_filter _ _ t ht
  · intro t ht
    rw [on_or_before_transactions] at ht
    exact is_transfer_false_of_mem_filter _ _ t ht
  · intro t ht
    rw [debits_transactions] at ht
    exact is_transfer_false_of_mem_filter _ _ t ht
  · intro t ht
    rw [deposits_transactions] at ht
    exact is_transfer_false_of_mem_filter _ _ t ht

/-- Claim C4 (witness): in a collection built with transfers included, the
`debits` filter still yields only non-transfers; the sample debit is a
member of the result and is not a transfer. -/
theorem filters_strip_transfers_witness :
    coffee ∈ ((AccountHistory.init [coffee, movedMoney] true).debits).transactions
    ∧ Transaction.is_transfer coffee = false :=
  ⟨by decide,
    (filters_strip_transfers (AccountHistory.init [coffee, movedMoney] true)
      ⟨2022, 1, 1⟩).2.2.2.2.1 coffee (by decide)⟩

/-- Claim C2 (counterexample): a collection built with
`include_transfers=True` around one transfer transaction has length 1, but
its `debits` and `deposits` have lengths summing to 0 — the transfer
appears in neither — so the partition law fails for this collection. -/
theorem debits_deposits_partition_cex :
    (AccountHistory.init [movedMoney] true).len = 1
    ∧ (AccountHistory.init [movedMoney] true).debits.len
        + (AccountHistory.init [movedMoney] true).deposits.len = 0 := by
  constructor <;> rfl

/-- Claim C2 (amended): for every collection none of whose transactions is
a transfer — in particular every collection built with the default
`include_transfers=False` — `debits` and `deposits` partition it exactly:
every contained transaction is in exactly one of the two, their lengths sum
to the collection's length, and their totals sum to the collection's
total. -/
theorem debits_deposits_partition (h : AccountHistory)
    (hnt : ∀ t ∈ h.transactions, t.is_transfer = false) :
    (∀ t ∈ h.transactions,
        (t ∈ h.debits.transactions ∧ t ∉ h.deposits.transactions)
      ∨ (t ∉ h.debits.transactions ∧ t ∈ h.deposits.transactions))
    ∧ h.debits.len + h.deposits.len = h.len
    ∧ h.debits.total + h.deposits.total = h.total := by
  have hdeb : h.debits.transactions
      = h.transactions.filter (fun t => t.is_debit) := by
    rw [debits_transactions]
    apply List.filter_congr
    intro t ht
    simp [hnt t ht]
  have hdep : h.deposits.transactions
      = h.transactions.filter (fun t => !t.is_debit) := by
    rw [deposits_transactions]
    apply List.filter_congr
    intro t ht
    simp [hnt t ht]
  refine ⟨?_, ?_, ?_⟩
  · intro t ht
    rw [hdeb, hdep]
    cases hd : t.is_debit with
    | true =>
      left
      simp [List.mem_filter, ht, hd]
    | false =>
      right
      simp [List.mem_filter, ht, hd]
  · rw [AccountHistory.len, AccountHistory.len, AccountHistory.len, hdeb, hdep]
    rw [← List.countP_eq_length_filter, ← List.countP_eq_length_filter]
    rw [Nat.add_comm]
    exact countP_not_add_countP (fun t => t.is_debit) h.transactions
  · rw [AccountHistory.total, AccountHistory.total, AccountHistory.total,
      hdeb, hdep, pySum_eq_sum_map, pySum_eq_sum_map, pySum_eq_sum_map]
    exact sum_map_filter_not_add Transaction.amount
      (fun t => t.is_debit) h.transactions

/-- Claim C2 (witness): the two-transaction sample collection (one debit,
one deposit, no transfers) satisfies the no-transfer hypothesis and its
debit and deposit lengths sum to its length. -/
theorem debits_deposits_partition_witness :
    (∀ t ∈ (AccountHistory.init [coffee, paycheck] false).transactions,
        t.is_transfer = false)
    ∧ (AccountHistory.init [coffee, paycheck] false).debits.len
        + (AccountHistory.init [coffee, paycheck] false).deposits.len
        = (AccountHistory.init [coffee, paycheck] false).len :=
  ⟨by decide,
    (debits_deposits_partition (AccountHistory.init [coffee, paycheck] false)
      (by decide)).2.1⟩

/-- Claim C3 (counterexample): in a collection built with
`include_transfers=True`, the transfer transaction's date is strictly after
2023-01-01, yet `after(2023-01-01)` omits it — the result is not exactly
the transactions whose date passes the bound. -/
theorem after_drops_transfer_cex :
    movedMoney ∈ (AccountHistory.init [movedMoney] true).transactions
    ∧ Date.lt ⟨2023, 1, 1⟩ movedMoney.date = true
    ∧ movedMoney ∉
        ((AccountHistory.init [movedMoney] true).after ⟨2023, 1, 1⟩).transactions := by
  refine ⟨by decide, by decide, by decide⟩

/-- Claim C3 (amended): `after`, `on_or_after`, `before` and `on_or_before`
each return a new collection containing exactly those transactions of the
receiver that are not transfers and whose date is respectively strictly
after, on or after, strictly before, or on or before the given date, in the
original order (the receiver itself, a pure value here, is unchanged); when
the receiver contains no transfers — every collection built with the
default — the result is exactly the stated date filter. -/
theorem date_filters_exact (h : AccountHistory) (d : Date) :
    (h.after d).transactions
      = h.transactions.filter (fun t => !t.is_transfer && Date.lt d t.date)
    ∧ (h.on_or_after d).transactions
      = h.transactions.filter (fun t => !t.is_transfer && Date.le d t.date)
    ∧ (h.before d).transactions
      = h.transactions.filter (fun t => !t.is_transfer && Date.lt t.date d)
    ∧ (h.on_or_before d).transactions
      = h.transactions.filter (fun t => !t.is_transfer && Date.le t.date d)
    ∧ ((∀ t ∈ h.transactions, t.is_transfer = false) →
        (h.after d).transactions
          = h.transactions.filter (fun t => Date.lt d t.date)
        ∧ (h.on_or_after d).transactions
          = h.transactions.filter (fun t => Date.le d t.date)
        ∧ (h.before d).transactions
          = h.transactions.filter (fun t => Date.lt t.date d)
        ∧ (h.on_or_before d).transactions
          = h.transactions.filter (fun t => Date.le t.date d)) := by
  refine ⟨after_transactions h d, on_or_after_transactions h d,
    before_transactions h d, on_or_before_transactions h d, ?_⟩
  intro hnt
  refine ⟨?_, ?_, ?_, ?_⟩
  · rw [after_transactions h d]
    apply List.filter_congr
    intro t ht
    simp [hnt t ht]
  · rw [on_or_after_transactions h d]
    apply List.filter_congr
    intro t ht
    simp [hnt t ht]
  · rw [before_transactions h d]
    apply List.filter_congr
    intro t ht
    simp [hnt t ht]
  · rw [on_or_before_transactions h d]
    apply List.filter_congr
    intro t ht
    simp [hnt t ht]

/-- Claim C3 (witness): on the transfer-free sample collection,
`after(2023-01-01)` is exactly the date filter. -/
theorem date_filters_exact_witness :
    (∀ t ∈ (AccountHistory.init [coffee, paycheck] false).transactions,
        t.is_transfer = false)
    ∧ ((AccountHistory.init [coffee, paycheck] false).after
          ⟨2023, 1, 1⟩).transactions
      = (AccountHistory.init [coffee, paycheck] false).transactions.filter
          (fun t => Date.lt ⟨2023, 1, 1⟩ t.date) :=
  ⟨by decide,
    ((date_filters_exact (AccountHistory.init [coffee, paycheck] false)
      ⟨2023, 1, 1⟩).2.2.2.2 (by decide)).1⟩

/-- Claim C9: filtering with `after` twice is filtering once with the
tighter bound — for `d1 < d2`, `history.after(d1).after(d2)` equals
`history.after(d2)` as a collection. -/
theorem after_after_tighter (h : AccountHistory) (d1 d2 : Date)
    (hlt : Date.lt d1 d2 = true) :
    (h.after d1).after d2 = h.after d2 := by
  have key : ((h.after d1).after d2).transactions = (h.after d2).transactions := by
    rw [after_transactions, after_transactions, after_transactions]
    rw [filter_of_filter_weaker]
    intro t hp
    simp only [Bool.and_eq_true] at hp ⊢
    exact ⟨hp.1, Date.lt_trans hlt hp.2⟩
  cases hab : (h.after d1).after d2 with
  | mk l1 =>
    cases hcd : h.after d2 with
    | mk l2 =>
      rw [hab, hcd] at key
      simpa using key

/-- Claim C9 (witness): on the sample collection, filtering after
2023-01-01 and then after 2023-01-15 equals filtering after 2023-01-15
directly. -/
theorem after_after_tighter_witness :
    Date.lt ⟨2023, 1, 1⟩ ⟨2023, 1, 15⟩ = true
    ∧ ((AccountHistory.init [coffee, paycheck, tea] false).after
          ⟨2023, 1, 1⟩).after ⟨2023, 1, 15⟩
      = (AccountHistory.init [coffee, paycheck, tea] false).after
          ⟨2023, 1, 15⟩ :=
  ⟨by decide,
    after_after_tighter (AccountHistory.init [coffee, paycheck, tea] false)
      ⟨2023, 1, 1⟩ ⟨2023, 1, 15⟩ (by decide)⟩

/-- Claim C7: `parse_date` returns the calendar date for every string made
of a 1–2 digit month (1–12), a slash, a 1–2 digit day (valid for the
month), a slash, and a 4-digit year (at least 0001); every accepted string
matches the month/day/year numeric format (so every string outside that
format fails); and the ISO-style string "2023-01-01" fails with a
ParseError rather than producing a date. -/
theorem parse_date_spec :
    (∀ ms ds ys : List Char,
        ms.all Char.isDigit = true → ds.all Char.isDigit = true →
        ys.all Char.isDigit = true →
        1 ≤ ms.length → ms.length ≤ 2 →
        1 ≤ ds.length → ds.length ≤ 2 →
        ys.length = 4 →
        1 ≤ digitsVal ms → digitsVal ms ≤ 12 →
        1 ≤ digitsVal ds → digitsVal ds ≤ 31 →
        1 ≤ digitsVal ys →
        digitsVal ds ≤ daysInMonth (digitsVal ys) (digitsVal ms) →
        Transaction.parse_date (String.mk (ms ++ '/' :: (ds ++ '/' :: ys)))
          = Except.ok ⟨digitsVal ys, digitsVal ms, digitsVal ds⟩)
    ∧ (∀ s d, Transaction.parse_date s = Except.ok d → matchesMDY s = true)
    ∧ Transaction.parse_date "2023-01-01"
        = Except.error (ParseError.badDate "2023-01-01") := by
  refine ⟨?_, ?_, by decide⟩
  · intro ms ds ys hms hds hys hl1 hl2 hl3 hl4 hl5 hv1 hv2 hv3 hv4 hv5 hv6
    have hsplit : splitSlash (String.mk (ms ++ '/' :: (ds ++ '/' :: ys))).data
        = [ms, ds, ys] := by
      rw [show (String.mk (ms ++ '/' :: (ds ++ '/' :: ys))).data
            = ms ++ '/' :: (ds ++ '/' :: ys) from rfl]
      rw [splitSlash_append _ _ (no_slash_of_digits hms)]
      rw [splitSlash_append _ _ (no_slash_of_digits hds)]
      rw [splitSlash_no_slash _ (no_slash_of_digits hys)]
    unfold Transaction.parse_date
    rw [hsplit]
    simp [dateGuard, hms, hds, hys, hl1, hl2, hl3, hl4, hl5, hv1, hv2, hv3,
      hv4, hv5, hv6]
  · intro s d hok
    obtain ⟨a, b, c, hsp⟩ := parse_date_ok_split hok
    have hg := parse_date_ok_guard hsp hok
    unfold matchesMDY
    rw [hsp]
    unfold dateGuard at hg
    simp only [Bool.and_eq_true, decide_eq_true_eq] at hg
    obtain ⟨⟨⟨⟨⟨⟨⟨⟨⟨⟨⟨⟨⟨ha, hb⟩, hc⟩, hal1⟩, _⟩, _⟩, _⟩, hbl1⟩,
      _⟩, _⟩, _⟩, hcl⟩, _⟩, _⟩ := hg
    have hane : a ≠ [] := by
      intro he; rw [he] at hal1; simp at hal1
    have hbne : b ≠ [] := by
      intro he; rw [he] at hbl1; simp at hbl1
    have hcne : c ≠ [] := by
      intro he; rw [he] at hcl; simp at hcl
    simp [ha, hb, hc, hane, hbne, hcne]

/-- Claim C7 (witness): the specification's example string "01/15/2023"
parses to January 15th, 2023. -/
theorem parse_date_spec_witness :
    Transaction.parse_date "01/15/2023" = Except.ok ⟨2023, 1, 15⟩ := by
  have h := parse_date_spec.1 ['0', '1'] ['1', '5'] ['2', '0', '2', '3']
    (by decide) (by decide) (by decide) (by decide) (by decide) (by decide)
    (by decide) (by decide) (by decide) (by decide) (by decide) (by decide)
    (by decide) (by decide)
  have he : String.mk (['0', '1'] ++ '/' :: (['1', '5'] ++ '/' :: ['2', '0', '2', '3']))
      = "01/15/2023" := by decide
  rw [he] at h
  rw [h]
  decide

/-- Claim C6 (counterexample): a data row with ten columns — the wrong
column count — loads successfully, the extra field silently ignored; and
two files whose only difference is the position of the malformed row
produce identical errors, so the ParseError cannot be naming the offending
row. -/
theorem from_csv_cex :
    (AccountHistory.from_csv (some [headerRow, rowTen]) false).isOk = true
    ∧ AccountHistory.from_csv (some [headerRow, rowGood, rowBadDate]) false
        = AccountHistory.from_csv (some [headerRow, rowBadDate, rowGood]) false
    ∧ AccountHistory.from_csv (some [headerRow, rowGood, rowBadDate]) false
        = Except.error (LoadError.parseError (ParseError.badDate "2023-01-01")) := by
  refine ⟨by decide, by decide, by decide⟩

/-- Claim C6 (amended): `from_csv` fails with a FileError when the file
cannot be opened; a data row fails with a ParseError when it has fewer than
nine columns, an unparseable date, or a non-numeric amount — the error
identifies the failure kind and offending value but not the row position,
and columns beyond the ninth are ignored rather than rejected; any single
row failure fails the entire load with no partial result. -/
theorem from_csv_error_handling :
    (∀ b, AccountHistory.from_csv none b = Except.error LoadError.fileError)
    ∧ (∀ row t, AccountHistory.parse_row row = Except.ok t →
        9 ≤ row.length
        ∧ (∃ s, row.get? 0 = some s
            ∧ (Transaction.parse_date s).isOk = true)
        ∧ (∃ s, row.get? 3 = some s ∧ (parseDecimal s).isSome = true))
    ∧ (∀ row, 9 ≤ row.length →
        AccountHistory.parse_row row = AccountHistory.parse_row (row.take 9))
    ∧ (∀ rows b,
        (∃ row ∈ rows.drop 1, (AccountHistory.parse_row row).isOk = false) →
        ∃ e, AccountHistory.from_csv (some rows) b
          = Except.error (LoadError.parseError e)) := by
  refine ⟨fun b => rfl, ?_, ?_, ?_⟩
  · intro row t hok
    obtain ⟨hlen, ⟨s0, hs0, hd0⟩, ⟨s3, hs3, ha3⟩, _⟩ := parse_row_ok_shape hok
    exact ⟨hlen, ⟨s0, hs0, by rw [hd0]; rfl⟩, ⟨s3, hs3, by rw [ha3]; rfl⟩⟩
  · intro row hlen
    simp [AccountHistory.parse_row, getCol_take]
  · intro rows b hfail
    obtain ⟨e, he⟩ := parseRows_error hfail
    refine ⟨e, ?_⟩
    simp only [AccountHistory.from_csv]
    rw [he]

/-- Claim C6 (witness): the missing file fails with FileError; `rowGood`
parses and indeed has nine columns; the ten-column row parses the same as
its first nine columns; a file with one malformed row fails as a whole with
a ParseError. -/
theorem from_csv_error_handling_witness :
    AccountHistory.from_csv none true = Except.error LoadError.fileError
    ∧ 9 ≤ rowGood.length
    ∧ AccountHistory.parse_row rowTen = AccountHistory.parse_row (rowTen.take 9)
    ∧ ∃ e, AccountHistory.from_csv (some [headerRow, rowBadDate]) false
        = Except.error (LoadError.parseError e) :=
  ⟨from_csv_error_handling.1 true,
    (from_csv_error_handling.2.1 rowGood rowGoodTx (by decide)).1,
    from_csv_error_handling.2.2.1 rowTen (by decide),
    from_csv_error_handling.2.2.2 [headerRow, rowBadDate] false
      ⟨rowBadDate, by decide, by decide⟩⟩

/-- Claim C8: for every CSV input whose data rows all parse, `from_csv`
with transfers excluded (the default) returns a collection whose length is
the number of data rows — the first line being discarded as the header —
minus the number of rows whose category column holds "Transfer". -/
theorem from_csv_length (rows : List (List String))
    (hok : ∀ row ∈ rows.drop 1, (AccountHistory.parse_row row).isOk = true) :
    ∃ h, AccountHistory.from_csv (some rows) false = Except.ok h
      ∧ h.len = (rows.drop 1).length
          - (rows.drop 1).countP
              (fun row => decide (row.getD 5 "" = "Transfer")) := by
  obtain ⟨ts, hts, hlen, hcount⟩ := parseRows_ok_shape hok
  refine ⟨AccountHistory.init ts false, ?_, ?_⟩
  · simp only [AccountHistory.from_csv]
    rw [hts]
  · rw [AccountHistory.len, init_false_transactions]
    rw [← List.countP_eq_length_filter]
    rw [← hcount, ← hlen]
    have hsum := countP_not_add_countP (fun t => t.is_transfer) ts
    omega

/-- Claim C8 (witness): a file with a header and two data rows, one of them
a transfer, loads (transfers excluded) to a collection of length
2 - 1 = 1. -/
theorem from_csv_length_witness :
    (∀ row ∈ ([headerRow, rowGood, rowTransfer].drop 1),
        (AccountHistory.parse_row row).isOk = true)
    ∧ ∃ h,
        AccountHistory.from_csv (some [headerRow, rowGood, rowTransfer]) false
          = Except.ok h
        ∧ h.len = ([headerRow, rowGood, rowTransfer].drop 1).length
            - ([headerRow, rowGood, rowTransfer].drop 1).countP
                (fun row => decide (row.getD 5 "" = "Transfer")) :=
  ⟨by decide, from_csv_length [headerRow, rowGood, rowTransfer] (by decide)⟩

end Mintalyze
